import Mathlib

/- Verification of the earthquake aggregation and classification engine of
   earthquakes.py: record data model, per-day counting (plot_quake_counts),
   feature statistics (quake_feature_stats), depth-tier coloring and marker
   sizing (map_quakes), and magnitude filtering (the criterion mask of the
   main routine). Timestamps are modelled as microseconds on a linear time
   axis (the parse format has microsecond precision); the numeric CSV
   columns are modelled as rationals, which is exact on every comparison and
   on the concrete values appearing below. -/

namespace Earthquakes

/-- One parsed seismic record: the parsed time value and the four numeric
columns latitude, longitude, depth, mag of the USGS feed. -/
structure SeismicRecord where
  time : ℤ
  latitude : ℚ
  longitude : ℚ
  depth : ℚ
  mag : ℚ
deriving DecidableEq

/-- RecordBatch is an ordered sequence of records in source-feed order. -/
abbrev RecordBatch := List SeismicRecord

/-- Microseconds in one calendar day, the unit of the time axis. -/
def usPerDay : ℤ := 86400000000

/-- Calendar date of a timestamp, as in the date method of a datetime value:
the timestamp truncated to whole days (floor, as proleptic calendar dates
extend below the epoch). -/
def dateOf (ts : ℤ) : ℤ := ts / usPerDay

/-- Result of a numpy minimum reduction over a list: no value exists on an
empty input, modelled as none, otherwise the least element via a left fold.
On an empty plain Python list (the date bounds of the script) numpy raises
there, while an empty pandas Series reduction (the statistics) returns NaN
instead, so each caller interprets the none case accordingly. -/
def npMin {α : Type} [LinearOrder α] : List α → Option α
  | [] => none
  | x :: xs => some (xs.foldl min x)

/-- Result of np.max over a list, dual to npMin. -/
def npMax {α : Type} [LinearOrder α] : List α → Option α
  | [] => none
  | x :: xs => some (xs.foldl max x)

/-- Heatcolor codes of map_quakes: yellow, orange, red. -/
def heatcolors : List String := ["#FFFF00", "#FF9900", "#CC3333"]

/-- Values appearing in the depth comparisons of map_quakes: a Python number
or a Python list of numbers (the slice depths from i to i+1 is a list). -/
inductive PyVal where
  | num (q : ℚ)
  | lst (l : List ℚ)

/-- Lexicographic strict comparison of two Python lists of numbers. -/
def pyListLt : List ℚ → List ℚ → Bool
  | [], [] => false
  | [], _ :: _ => true
  | _ :: _, [] => false
  | x :: xs, y :: ys => decide (x < y) || (decide (x = y) && pyListLt xs ys)

/-- Strict comparison of CPython 2 for the value shapes used by map_quakes:
two numbers compare numerically; in a mixed comparison of a number and a
list, the number always sorts first (CPython 2 compares mismatched types by
type name and treats every number as having the empty name, so any number
is strictly below any list); two lists compare lexicographically. -/
def pyLt : PyVal → PyVal → Bool
  | .num a, .num b => decide (a < b)
  | .num _, .lst _ => true
  | .lst _, .num _ => false
  | .lst a, .lst b => pyListLt a b

/-- Non-strict comparison of CPython 2: below-or-equal is the complement of
the reversed strict comparison, since the default comparison is total. -/
def pyLe (a b : PyVal) : Bool := !(pyLt b a)

/-- Slice of the depth list from i to i+1 as taken by map_quakes: a list
holding the i-th depth, or empty when i is out of range. -/
def depthSlice (depths : List ℚ) (i : ℕ) : List ℚ := (depths.drop i).take 1

/-- Heatcolor chosen by the loop body of map_quakes for quake i. The source
compares the slice of the depth list from i to i+1, a one-element list, with
the numbers 70 and 300 under the CPython 2 ordering; the chained comparison
of the second branch is the conjunction of its two comparisons. -/
def map_quakes_heatcolor (depths : List ℚ) (i : ℕ) : String :=
  if pyLt (.lst (depthSlice depths i)) (.num 70) then
    heatcolors.getD 0 ""
  else if pyLe (.num 70) (.lst (depthSlice depths i))
      && pyLt (.lst (depthSlice depths i)) (.num 300) then
    heatcolors.getD 1 ""
  else
    heatcolors.getD 2 ""

/-- Exact rational value of the double-precision constant np.pi, which is
884279719003555 divided by 2 to the 48th power. -/
def npPi : ℚ := 884279719003555 / 281474976710656

/-- Marker size computed in the loop of map_quakes: np.pi times the square
of the magnitude, divided by 2. -/
def markerWeight (m : ℚ) : ℚ := (npPi * m ^ 2) / 2

/-- Per-record output of the plotting loop of map_quakes: the heatcolor and
the marker size emitted for each index of the batch, in batch order. -/
def map_quakes_classify (quakes : RecordBatch) : List (String × ℚ) :=
  (List.range quakes.length).map (fun i =>
    (map_quakes_heatcolor (quakes.map (·.depth)) i,
     markerWeight ((quakes.map (·.mag)).getD i 0)))

/-- Boolean mask built by the main routine: the magnitude column mapped
through the predicate of being at least mag_limit. -/
def criterion (eq : RecordBatch) (mag_limit : ℚ) : List Bool :=
  eq.map (fun r => decide (r.mag ≥ mag_limit))

/-- Row selection of a dataframe by a boolean mask: the rows whose mask
entry is true, in order. -/
def selectRows (eq : RecordBatch) (mask : List Bool) : RecordBatch :=
  (eq.zip mask).filterMap (fun p => if p.2 then some p.1 else none)

/-- Magnitude filtering as performed by the main routine: select the rows
of the batch whose criterion entry is true. -/
def filterByMagnitude (eq : RecordBatch) (mag_limit : ℚ) : RecordBatch :=
  selectRows eq (criterion eq mag_limit)

/-- Scenario batch of the spec: two records two days apart (times are day 0
and day 2 in microseconds), depths 10 and 80, magnitudes 4.0 and 6.5. -/
def scenario : RecordBatch :=
  [{ time := 0, latitude := 0, longitude := 0, depth := 10, mag := 4 },
   { time := 172800000000, latitude := 0, longitude := 0, depth := 80, mag := 13/2 }]

/-- Count of quakes whose date equals d, as accumulated by the inner loop of
plot_quake_counts over the time column. -/
def countOnDay (times : List ℤ) (d : ℤ) : ℕ :=
  times.countP (fun tm => decide (dateOf tm = d))

/-- While loop of plot_quake_counts: from the current date d up to dmax
inclusive, emit the date together with its count, stepping one day. -/
def quakeCountsLoop (times : List ℤ) (d dmax : ℤ) : List (ℤ × ℕ) :=
  if h : d ≤ dmax then
    (d, countOnDay times d) :: quakeCountsLoop times (d + 1) dmax
  else
    []
termination_by (dmax + 1 - d).toNat
decreasing_by omega

/-- Daily-count series produced by plot_quake_counts. The quakes parameter
of the source function is accepted and then never consulted: the loop reads
the ambient script-level dataframe eq and the ambient datetime bounds
date min and date max, to which the date method is applied first. -/
def plot_quake_counts (quakes eq : RecordBatch) (date_min date_max : ℤ) :
    List (ℤ × ℕ) :=
  quakeCountsLoop (eq.map (·.time)) (dateOf date_min) (dateOf date_max)

/-- Ambient script-level date bound computed at line 197 of the source:
np.min over the parsed time column of the full dataframe. -/
def script_date_min (eq : RecordBatch) : Option ℤ := npMin (eq.map (·.time))

/-- Ambient script-level date bound computed at line 198 of the source:
np.max over the parsed time column of the full dataframe. -/
def script_date_max (eq : RecordBatch) : Option ℤ := npMax (eq.map (·.time))

/-- Error kinds of the engine: an empty reduction that raises (numpy min
and max over an empty plain list, argmax of an empty column) and an
unrecognized column name (a pandas KeyError on dataframe lookup). The
empty-Series statistics reductions do not raise: they return NaN. -/
inductive EngineError where
  | EmptyBatch
  | UnknownColumn
deriving DecidableEq

/-- Values of one dataframe column: the time column holds parsed instants,
the other four hold numbers. -/
inductive ColumnVals where
  | times (l : List ℤ)
  | nums (l : List ℚ)
deriving DecidableEq

/-- Dataframe column access: the five recognized columns of the feed are
time, latitude, longitude, depth, mag; any other name fails. -/
def column (eq : RecordBatch) (name : String) : Except EngineError ColumnVals :=
  if name = "time" then .ok (.times (eq.map (·.time)))
  else if name = "latitude" then .ok (.nums (eq.map (·.latitude)))
  else if name = "longitude" then .ok (.nums (eq.map (·.longitude)))
  else if name = "depth" then .ok (.nums (eq.map (·.depth)))
  else if name = "mag" then .ok (.nums (eq.map (·.mag)))
  else .error .UnknownColumn

/-- Numeric dataframe column access as used by quake_feature_stats. The
statistics are queried on the numeric features only (depth and mag in the
source; latitude and longitude are equally numeric); the time column is
excluded from statistics and handled by the binner instead. -/
def numColumn (eq : RecordBatch) (feature : String) : Except EngineError (List ℚ) :=
  if feature = "latitude" then .ok (eq.map (·.latitude))
  else if feature = "longitude" then .ok (eq.map (·.longitude))
  else if feature = "depth" then .ok (eq.map (·.depth))
  else if feature = "mag" then .ok (eq.map (·.mag))
  else .error .UnknownColumn

/-- Arithmetic mean as computed by np.mean: the sum divided by the length. -/
def npMean (l : List ℚ) : ℚ := l.sum / l.length

/-- Population variance as computed by np.std with its default divisor: the
mean of the squared deviations from the mean, dividing by N. The value
np.std returns is the square root of this quantity; the square is carried
here since the root usually leaves the rationals. -/
def npVar (l : List ℚ) : ℚ :=
  (l.map (fun x => (x - npMean l) ^ 2)).sum / l.length

/-- Sample variance with the N minus 1 divisor, for contrast with npVar. -/
def sampleVar (l : List ℚ) : ℚ :=
  (l.map (fun x => (x - npMean l) ^ 2)).sum / ((l.length : ℚ) - 1)

/-- Mean of a pandas Series column: NaN on an empty column (pandas
reductions skip the raise and return NaN), modelled as none. -/
def npMeanS (l : List ℚ) : Option ℚ :=
  if l.isEmpty then none else some (npMean l)

/-- Squared standard deviation of a pandas Series column: NaN on an empty
column, modelled as none. -/
def npVarS (l : List ℚ) : Option ℚ :=
  if l.isEmpty then none else some (npVar l)

/-- Summary returned by quake_feature_stats. Each field is a float that may
be NaN, modelled as an optional rational with none for NaN; the stdSq field
is the square of the standard deviation the source returns. -/
structure FeatureSummary where
  min : Option ℚ
  max : Option ℚ
  mean : Option ℚ
  stdSq : Option ℚ
deriving DecidableEq

/-- Statistics of one numeric feature, as returned by quake_feature_stats:
the dictionary of np.min, np.max, np.mean and np.std over the column. The
reductions dispatch to the pandas Series methods, which return NaN on a
column with zero records rather than raising, so an empty batch yields a
dictionary of NaN values; an unrecognized feature name raises KeyError on
the column lookup. -/
def quake_feature_stats (quakes : RecordBatch) (feature : String) :
    Except EngineError FeatureSummary :=
  match numColumn quakes feature with
  | .error e => .error e
  | .ok vals =>
    .ok { min := npMin vals, max := npMax vals,
          mean := npMeanS vals, stdSq := npVarS vals }

/-- First position of a value in a list, scanning left to right. -/
def firstIdxOf (a : ℚ) : List ℚ → ℕ
  | [] => 0
  | x :: xs => if x = a then 0 else firstIdxOf a xs + 1

/-- Result of the argmax method over the magnitude column: the index of the
first occurrence of the maximum value, raising on zero elements. -/
def npArgmax (l : List ℚ) : Option ℕ :=
  match npMax l with
  | none => none
  | some m => some (firstIdxOf m l)

/-- Most significant event reported by the main routine: the row of the
dataframe at the argmax of the magnitude column. -/
def mostSignificant (eq : RecordBatch) : Except EngineError SeismicRecord :=
  match npArgmax (eq.map (·.mag)) with
  | none => .error .EmptyBatch
  | some i =>
    match eq[i]? with
    | some r => .ok r
    | none => .error .EmptyBatch

/-- Daily-count query as the script performs it end to end: the ambient date
bounds are computed from the time column first (np.min and np.max raise on a
batch with zero records), then the counting loop runs. -/
def dailyCountsChecked (quakes : RecordBatch) : Except EngineError (List (ℤ × ℕ)) :=
  match script_date_min quakes, script_date_max quakes with
  | some tmin, some tmax => .ok (plot_quake_counts quakes quakes tmin tmax)
  | _, _ => .error .EmptyBatch

theorem filterByMagnitude_eq_filter (eq : RecordBatch) (mag_limit : ℚ) :
    filterByMagnitude eq mag_limit = eq.filter (fun r => decide (mag_limit ≤ r.mag)) := by
  induction eq with
  | nil => rfl
  | cons r rs ih =>
    simp only [filterByMagnitude, criterion, selectRows] at ih ⊢
    by_cases h : mag_limit ≤ r.mag <;>
      simp [h, ih, List.filter_cons]

section MinMaxLemmas

variable {α : Type} [LinearOrder α]

theorem foldl_min_le_init : ∀ (xs : List α) (b : α), xs.foldl min b ≤ b
  | [], b => le_refl b
  | x :: xs, b => le_trans (foldl_min_le_init xs (min b x)) (min_le_left b x)

theorem foldl_min_le_mem : ∀ (xs : List α) (b a : α), a ∈ xs → xs.foldl min b ≤ a := by
  intro xs
  induction xs with
  | nil => intro b a ha; cases ha
  | cons x xs ih =>
    intro b a ha
    rcases List.mem_cons.mp ha with h | h
    · subst h
      exact le_trans (foldl_min_le_init xs (min b a)) (min_le_right b a)
    · exact ih (min b x) a h

theorem foldl_min_mem : ∀ (xs : List α) (b : α), xs.foldl min b = b ∨ xs.foldl min b ∈ xs := by
  intro xs
  induction xs with
  | nil => intro b; exact Or.inl rfl
  | cons x xs ih =>
    intro b
    rcases ih (min b x) with h | h
    · rcases le_total b x with hbx | hbx
      · exact Or.inl (by rw [List.foldl_cons, h, min_eq_left hbx])
      · refine Or.inr (List.mem_cons.mpr (Or.inl ?_))
        rw [List.foldl_cons, h, min_eq_right hbx]
    · exact Or.inr (List.mem_cons.mpr (Or.inr h))

theorem le_foldl_max_init : ∀ (xs : List α) (b : α), b ≤ xs.foldl max b
  | [], b => le_refl b
  | x :: xs, b => le_trans (le_max_left b x) (le_foldl_max_init xs (max b x))

theorem mem_le_foldl_max : ∀ (xs : List α) (b a : α), a ∈ xs → a ≤ xs.foldl max b := by
  intro xs
  induction xs with
  | nil => intro b a ha; cases ha
  | cons x xs ih =>
    intro b a ha
    rcases List.mem_cons.mp ha with h | h
    · subst h
      exact le_trans (le_max_right b a) (le_foldl_max_init xs (max b a))
    · exact ih (max b x) a h

theorem foldl_max_mem : ∀ (xs : List α) (b : α), xs.foldl max b = b ∨ xs.foldl max b ∈ xs := by
  intro xs
  induction xs with
  | nil => intro b; exact Or.inl rfl
  | cons x xs ih =>
    intro b
    rcases ih (max b x) with h | h
    · rcases le_total b x with hbx | hbx
      · refine Or.inr (List.mem_cons.mpr (Or.inl ?_))
        rw [List.foldl_cons, h, max_eq_right hbx]
      · exact Or.inl (by rw [List.foldl_cons, h, max_eq_left hbx])
    · exact Or.inr (List.mem_cons.mpr (Or.inr h))

theorem npMin_spec {l : List α} {m : α} (h : npMin l = some m) :
    m ∈ l ∧ ∀ a ∈ l, m ≤ a := by
  cases l with
  | nil => cases h
  | cons x xs =>
    have hm : xs.foldl min x = m := by
      simpa [npMin] using h
    subst hm
    constructor
    · rcases foldl_min_mem xs x with h | h
      · rw [h]; exact List.mem_cons_self x xs
      · exact List.mem_cons.mpr (Or.inr h)
    · intro a ha
      rcases List.mem_cons.mp ha with h | h
      · exact h ▸ foldl_min_le_init xs x
      · exact foldl_min_le_mem xs x a h

theorem npMax_spec {l : List α} {m : α} (h : npMax l = some m) :
    m ∈ l ∧ ∀ a ∈ l, a ≤ m := by
  cases l with
  | nil => cases h
  | cons x xs =>
    have hm : xs.foldl max x = m := by
      simpa [npMax] using h
    subst hm
    constructor
    · rcases foldl_max_mem xs x with h | h
      · rw [h]; exact List.mem_cons_self x xs
      · exact List.mem_cons.mpr (Or.inr h)
    · intro a ha
      rcases List.mem_cons.mp ha with h | h
      · exact h ▸ le_foldl_max_init xs x
      · exact mem_le_foldl_max xs x a h

theorem npMin_isSome {l : List α} (h : l ≠ []) : ∃ m, npMin l = some m := by
  cases l with
  | nil => exact absurd rfl h
  | cons x xs => exact ⟨xs.foldl min x, rfl⟩

theorem npMax_isSome {l : List α} (h : l ≠ []) : ∃ m, npMax l = some m := by
  cases l with
  | nil => exact absurd rfl h
  | cons x xs => exact ⟨xs.foldl max x, rfl⟩

end MinMaxLemmas

theorem dateOf_mono {a b : ℤ} (h : a ≤ b) : dateOf a ≤ dateOf b :=
  Int.ediv_le_ediv (by norm_num [usPerDay]) h

theorem quakeCountsLoop_spec (times : List ℤ) (dmax : ℤ) :
    ∀ (n : ℕ) (d : ℤ), (dmax + 1 - d).toNat = n →
      quakeCountsLoop times d dmax
        = (List.range n).map (fun (i : ℕ) => (d + (i : ℤ), countOnDay times (d + (i : ℤ)))) := by
  intro n
  induction n with
  | zero =>
    intro d hd
    rw [quakeCountsLoop, dif_neg (by omega)]
    simp
  | succ n ih =>
    intro d hd
    rw [quakeCountsLoop, dif_pos (by omega : d ≤ dmax), ih (d + 1) (by omega),
      List.range_succ_eq_map, List.map_cons, List.map_map]
    refine congrArg₂ _ (by simp) (List.map_congr_left ?_)
    intro i _
    have hcast : ((Nat.succ i : ℕ) : ℤ) = (i : ℤ) + 1 := by push_cast; ring
    simp only [Function.comp, hcast]
    rw [show d + ((i : ℤ) + 1) = d + 1 + (i : ℤ) by ring]

theorem sum_map_add (l : List ℕ) (f g : ℕ → ℕ) :
    (l.map (fun i => f i + g i)).sum = (l.map f).sum + (l.map g).sum := by
  induction l with
  | nil => rfl
  | cons x xs ih => simp [ih]; omega

theorem indicator_sum (x d : ℤ) :
    ∀ n : ℕ, ((List.range n).map (fun (i : ℕ) => if x = d + (i : ℤ) then (1 : ℕ) else 0)).sum
      = if d ≤ x ∧ x < d + (n : ℤ) then 1 else 0 := by
  intro n
  induction n with
  | zero =>
    rw [List.range_zero, List.map_nil, List.sum_nil, if_neg (by push_cast; omega)]
  | succ n ih =>
    rw [List.range_succ, List.map_append, List.sum_append, ih]
    simp only [List.map_cons, List.map_nil, List.sum_cons, List.sum_nil]
    push_cast
    split_ifs <;> omega

theorem sum_over_days (d : ℤ) (n : ℕ) (times : List ℤ) :
    ((List.range n).map (fun (i : ℕ) => countOnDay times (d + (i : ℤ)))).sum
      = times.countP (fun tm => decide (d ≤ dateOf tm ∧ dateOf tm < d + (n : ℤ))) := by
  induction times with
  | nil =>
    simp [countOnDay]
  | cons t ts ih =>
    have hc : ∀ d' : ℤ, countOnDay (t :: ts) d'
        = countOnDay ts d' + (if dateOf t = d' then 1 else 0) := by
      intro d'
      simp [countOnDay, List.countP_cons]
    simp only [hc]
    rw [sum_map_add, ih, List.countP_cons, indicator_sum]
    simp

theorem quakeCountsLoop_single (times : List ℤ) (d : ℤ) :
    quakeCountsLoop times d d = [(d, countOnDay times d)] := by
  rw [quakeCountsLoop, dif_pos le_rfl, quakeCountsLoop, dif_neg (by omega)]

/-- A blank record used as concrete input for ambient-state probes. -/
def probeRecord : SeismicRecord :=
  { time := 0, latitude := 0, longitude := 0, depth := 0, mag := 0 }

/-- C2: the claim states half-open depth tiers (below 70 SHALLOW, from 70
below 300 INTERMEDIATE, from 300 DEEP, with depth 70 INTERMEDIATE and depth
300 DEEP). The code instead compares a one-element list slice of the depth
list to the numbers 70 and 300; under the CPython 2 mixed-type ordering a
number is always strictly below a list, so both guards fail and every
record, whatever its depth, receives the third heatcolor, the DEEP color.
In particular depth 10 is not colored SHALLOW and depth 70 is not colored
INTERMEDIATE, contradicting the comments in the source loop. -/
theorem map_quakes_heatcolor_always_deep :
    ∀ (depths : List ℚ) (i : ℕ), map_quakes_heatcolor depths i = "#CC3333" := by
  intro depths i
  rfl

/-- C3: the daily-counts operation is not a pure function of the batch
passed to it. Both calls below pass the identical one-record batch as the
quakes argument, yet return different series because the loop counts over
the ambient dataframe, which differs between the calls. -/
theorem plot_quake_counts_reads_ambient_state :
    plot_quake_counts [probeRecord] [probeRecord] 0 0 = [(0, 1)] ∧
    plot_quake_counts [probeRecord] [probeRecord, probeRecord] 0 0 = [(0, 2)] ∧
    plot_quake_counts [probeRecord] [probeRecord] 0 0
      ≠ plot_quake_counts [probeRecord] [probeRecord, probeRecord] 0 0 := by
  have e1 : plot_quake_counts [probeRecord] [probeRecord] 0 0 = [(0, 1)] := by
    show quakeCountsLoop ([probeRecord].map (·.time)) (dateOf 0) (dateOf 0) = [(0, 1)]
    rw [quakeCountsLoop_single]
    decide
  have e2 : plot_quake_counts [probeRecord] [probeRecord, probeRecord] 0 0 = [(0, 2)] := by
    show quakeCountsLoop ([probeRecord, probeRecord].map (·.time)) (dateOf 0) (dateOf 0)
        = [(0, 2)]
    rw [quakeCountsLoop_single]
    decide
  refine ⟨e1, e2, ?_⟩
  rw [e1, e2]
  decide

/-- C4: filterByMagnitude returns exactly the records whose magnitude is at
least the threshold (a record with magnitude equal to the threshold is
kept, as the mask predicate is non-strict), it preserves the relative order
of the input batch, and on the scenario batch with threshold 5.0 only the
second record remains. -/
theorem filterByMagnitude_spec :
    (∀ (eq : RecordBatch) (lim : ℚ),
      filterByMagnitude eq lim = eq.filter (fun r => decide (lim ≤ r.mag)) ∧
      (filterByMagnitude eq lim).Sublist eq ∧
      (∀ r, r ∈ filterByMagnitude eq lim ↔ r ∈ eq ∧ lim ≤ r.mag)) ∧
    filterByMagnitude scenario 5
      = [{ time := 172800000000, latitude := 0, longitude := 0, depth := 80, mag := 13/2 }] := by
  refine ⟨fun eq lim => ⟨filterByMagnitude_eq_filter eq lim, ?_, ?_⟩, ?_⟩
  · rw [filterByMagnitude_eq_filter]
    exact List.filter_sublist eq
  · intro r
    rw [filterByMagnitude_eq_filter, List.mem_filter]
    simp
  · rw [filterByMagnitude_eq_filter]
    norm_num [scenario, List.filter_cons]

/-- C5: the marker weight of every record is np.pi times the squared
magnitude, halved; the classifier emits exactly these weights on the
scenario batch, and magnitudes 4.0 and 6.5 give values within 0.01 of
25.13 and 66.37 respectively. -/
theorem markerWeight_values :
    (∀ m : ℚ, markerWeight m = (npPi * m ^ 2) / 2) ∧
    (map_quakes_classify scenario).map Prod.snd = [markerWeight 4, markerWeight (13/2)] ∧
    |markerWeight 4 - 2513/100| < 1/100 ∧
    |markerWeight (13/2) - 6637/100| < 1/100 := by
  refine ⟨fun m => rfl, rfl, ?_, ?_⟩
  · rw [abs_sub_lt_iff]
    constructor <;> norm_num [markerWeight, npPi]
  · rw [abs_sub_lt_iff]
    constructor <;> norm_num [markerWeight, npPi]

/-- C6 counterexample: the marker-weight function is not monotonically
increasing over all magnitudes the program accepts (magnitudes in a USGS
feed can be negative and the code never validates them): for the pair of
magnitudes minus 1 and 0 the first is smaller, yet its weight is strictly
larger, refuting both the strict and the non-strict reading. -/
theorem markerWeight_not_monotone :
    (-1 : ℚ) < 0 ∧ ¬ markerWeight (-1) ≤ markerWeight 0 := by
  constructor
  · norm_num
  · norm_num [markerWeight, npPi]

/-- C6 amended: the marker weight is strictly increasing in the magnitude
on nonnegative magnitudes. -/
theorem markerWeight_strictMono_on_nonneg (m1 m2 : ℚ) (h0 : 0 ≤ m1) (h : m1 < m2) :
    markerWeight m1 < markerWeight m2 := by
  have hpi : (0 : ℚ) < npPi := by norm_num [npPi]
  have hsq : m1 ^ 2 < m2 ^ 2 := by nlinarith
  have h2 : npPi * m1 ^ 2 < npPi * m2 ^ 2 := by nlinarith
  simp only [markerWeight]
  linarith

/-- C6 amended witness: the amended statement applied at magnitudes 1 and 2. -/
theorem markerWeight_strictMono_on_nonneg_witness :
    (0 : ℚ) ≤ 1 ∧ (1 : ℚ) < 2 ∧ markerWeight 1 < markerWeight 2 :=
  ⟨by norm_num, by norm_num,
    markerWeight_strictMono_on_nonneg 1 2 (by norm_num) (by norm_num)⟩

/-- C7: filtering by a magnitude threshold is idempotent: filtering the
result again with the same threshold returns it unchanged. -/
theorem filterByMagnitude_idempotent (eq : RecordBatch) (lim : ℚ) :
    filterByMagnitude (filterByMagnitude eq lim) lim = filterByMagnitude eq lim := by
  simp only [filterByMagnitude_eq_filter]
  rw [List.filter_filter]
  simp

/-- C8 counterexample: a statistics query against a batch with zero records
does not fail: the pandas Series reductions return NaN on an empty column,
so the source returns a dictionary whose four entries are all NaN, not an
EmptyBatch failure. -/
theorem quake_feature_stats_empty_no_error :
    quake_feature_stats ([] : RecordBatch) "mag"
      = .ok { min := none, max := none, mean := none, stdSq := none } ∧
    quake_feature_stats ([] : RecordBatch) "mag" ≠ .error .EmptyBatch := by
  constructor
  · rfl
  · intro h
    exact Except.noConfusion h

/-- C8 amended: the daily-counts query and the most-significant-event query
against a batch with zero records fail with the EmptyBatch error (their
reductions over empty plain lists and the empty-column argmax raise) and
return nothing else, while a statistics query against zero records instead
returns a dictionary of NaN values; a column or feature request for a name
outside the recognized set fails with UnknownColumn on any batch. -/
theorem empty_and_unknown_failures :
    (∀ feature ∈ (["latitude", "longitude", "depth", "mag"] : List String),
        quake_feature_stats ([] : RecordBatch) feature
          = .ok { min := none, max := none, mean := none, stdSq := none }) ∧
    dailyCountsChecked ([] : RecordBatch) = .error .EmptyBatch ∧
    mostSignificant ([] : RecordBatch) = .error .EmptyBatch ∧
    (∀ (eq : RecordBatch) (name : String),
        name ∉ (["time", "latitude", "longitude", "depth", "mag"] : List String) →
        column eq name = .error .UnknownColumn ∧
        quake_feature_stats eq name = .error .UnknownColumn) := by
  refine ⟨?_, rfl, rfl, ?_⟩
  · intro f hf
    simp only [List.mem_cons, List.not_mem_nil, or_false] at hf
    rcases hf with rfl | rfl | rfl | rfl <;> rfl
  · intro eq name h
    simp only [List.mem_cons, List.not_mem_nil, or_false] at h
    push_neg at h
    obtain ⟨h1, h2, h3, h4, h5⟩ := h
    constructor
    · simp [column, h1, h2, h3, h4, h5]
    · simp [quake_feature_stats, numColumn, h2, h3, h4, h5]

/-- C8 amended witness: the amended claim applied to the recognized feature
mag on the empty batch and to the unrecognized name place. -/
theorem empty_and_unknown_failures_witness :
    ("mag" ∈ (["latitude", "longitude", "depth", "mag"] : List String)
      ∧ quake_feature_stats ([] : RecordBatch) "mag"
          = .ok { min := none, max := none, mean := none, stdSq := none }) ∧
    ("place" ∉ (["time", "latitude", "longitude", "depth", "mag"] : List String)
      ∧ column ([] : RecordBatch) "place" = .error .UnknownColumn) :=
  ⟨⟨by decide, empty_and_unknown_failures.1 "mag" (by decide)⟩,
   ⟨by decide, (empty_and_unknown_failures.2.2.2 [] "place" (by decide)).1⟩⟩

theorem firstIdxOf_lt_length {a : ℚ} : ∀ {l : List ℚ}, a ∈ l → firstIdxOf a l < l.length := by
  intro l
  induction l with
  | nil => intro h; cases h
  | cons x xs ih =>
    intro h
    by_cases hx : x = a
    · simp [firstIdxOf, hx]
    · have ha : a ∈ xs := by
        rcases List.mem_cons.mp h with h1 | h1
        · exact absurd h1.symm hx
        · exact h1
      simpa [firstIdxOf, hx] using Nat.succ_lt_succ (ih ha)

theorem firstIdxOf_getElem {a : ℚ} : ∀ {l : List ℚ}, a ∈ l → l[firstIdxOf a l]? = some a := by
  intro l
  induction l with
  | nil => intro h; cases h
  | cons x xs ih =>
    intro h
    by_cases hx : x = a
    · simp [firstIdxOf, hx]
    · have ha : a ∈ xs := by
        rcases List.mem_cons.mp h with h1 | h1
        · exact absurd h1.symm hx
        · exact h1
      simpa [firstIdxOf, hx] using ih ha

theorem firstIdxOf_min {a : ℚ} : ∀ {l : List ℚ} (j : ℕ), j < firstIdxOf a l →
    ∀ b, l[j]? = some b → b ≠ a := by
  intro l
  induction l with
  | nil => intro j hj; simp [firstIdxOf] at hj
  | cons x xs ih =>
    intro j hj b hb
    by_cases hx : x = a
    · rw [firstIdxOf, if_pos hx] at hj
      cases hj
    · rw [firstIdxOf, if_neg hx] at hj
      cases j with
      | zero =>
        have : x = b := by simpa using hb
        exact this ▸ hx
      | succ j =>
        exact ih j (by omega) b (by simpa using hb)

/-- C9: on a non-empty batch the most-significant-event query returns a
record of the batch achieving the maximum magnitude, and every record at a
strictly earlier position has strictly smaller magnitude, so the returned
record is the first one attaining the maximum (stable-first tie-break). -/
theorem mostSignificant_first_max (quakes : RecordBatch) (h : quakes ≠ []) :
    ∃ (i : ℕ) (r : SeismicRecord),
      mostSignificant quakes = .ok r ∧
      quakes[i]? = some r ∧
      (∀ q ∈ quakes, q.mag ≤ r.mag) ∧
      (∀ j, j < i → ∀ q, quakes[j]? = some q → q.mag < r.mag) := by
  have hm : quakes.map (·.mag) ≠ [] := by simpa using h
  obtain ⟨m, hmax⟩ := npMax_isSome hm
  obtain ⟨hmem, hub⟩ := npMax_spec hmax
  have hget : (quakes.map (·.mag))[firstIdxOf m (quakes.map (·.mag))]? = some m :=
    firstIdxOf_getElem hmem
  rw [List.getElem?_map] at hget
  obtain ⟨r, hr, hrm⟩ := Option.map_eq_some'.mp hget
  have hargm : npArgmax (quakes.map (·.mag)) = some (firstIdxOf m (quakes.map (·.mag))) := by
    unfold npArgmax
    rw [hmax]
  refine ⟨firstIdxOf m (quakes.map (·.mag)), r, ?_, hr, ?_, ?_⟩
  · simp only [mostSignificant, hargm, hr]
  · intro q hq
    have : q.mag ∈ quakes.map (·.mag) := List.mem_map_of_mem _ hq
    rw [hrm]
    exact hub _ this
  · intro j hj q hq
    have hmagsj : (quakes.map (·.mag))[j]? = some q.mag := by
      rw [List.getElem?_map, hq]
      rfl
    have hne : q.mag ≠ m := firstIdxOf_min j hj q.mag hmagsj
    have hle : q.mag ≤ m := hub _ (List.getElem?_mem hmagsj)
    rw [hrm]
    exact lt_of_le_of_ne hle hne

/-- C9 witness: the claim applied to the scenario batch. -/
theorem mostSignificant_first_max_witness :
    scenario ≠ [] ∧
    ∃ (i : ℕ) (r : SeismicRecord),
      mostSignificant scenario = .ok r ∧
      scenario[i]? = some r ∧
      (∀ q ∈ scenario, q.mag ≤ r.mag) ∧
      (∀ j, j < i → ∀ q, scenario[j]? = some q → q.mag < r.mag) :=
  ⟨List.cons_ne_nil _ _, mostSignificant_first_max scenario (List.cons_ne_nil _ _)⟩

/-- C10: the statistics of the scenario magnitudes 4.0 and 6.5 are min 4.0,
max 6.5, mean 5.25, and the squared standard deviation 25 over 16, whose
nonnegative root is exactly 1.25, matching the population formula dividing
by N; the sample formula dividing by N minus 1 would give 25 over 8, whose
root is not 1.25. -/
theorem quake_feature_stats_population :
    quake_feature_stats scenario "mag"
      = .ok { min := some 4, max := some (13/2), mean := some (21/4),
              stdSq := some (25/16) } ∧
    (5/4 : ℚ) ^ 2 = 25/16 ∧
    sampleVar (scenario.map (·.mag)) = 25/8 ∧
    (5/4 : ℚ) ^ 2 ≠ 25/8 := by
  refine ⟨?_, by norm_num, ?_, by norm_num⟩
  · have hcol : numColumn scenario "mag" = Except.ok [(4 : ℚ), 13/2] := rfl
    have hmin : npMin [(4 : ℚ), 13/2] = some 4 := by
      norm_num [npMin, min_def]
    have hmax : npMax [(4 : ℚ), 13/2] = some (13/2) := by
      norm_num [npMax, max_def]
    simp only [quake_feature_stats, hcol, hmin, hmax]
    simp only [npMeanS, npVarS, npMean, npVar, List.isEmpty_cons, List.map_cons,
      List.map_nil, List.sum_cons, List.sum_nil, List.length_cons, List.length_nil,
      FeatureSummary.mk.injEq, if_false, Bool.false_eq_true]
    norm_num
  · have hmags : scenario.map (·.mag) = [(4 : ℚ), 13/2] := rfl
    rw [hmags]
    simp only [sampleVar, npMean, List.map_cons, List.map_nil, List.sum_cons, List.sum_nil,
      List.length_cons, List.length_nil]
    norm_num

/-- C1: invoked as the script invokes it, with the ambient dataframe equal
to the batch and the ambient bounds the np.min and np.max of its time
column, the daily-counts operation emits exactly one pair per calendar day
from the minimum record date to the maximum record date inclusive, in
ascending date order with zero-count days included: the result is the range
of consecutive days starting at the minimum date paired with the per-day
counts, its length is the day difference plus one, and the counts sum to
the number of records of the batch. -/
theorem plot_quake_counts_complete (quakes : RecordBatch) (tmin tmax : ℤ)
    (hmin : script_date_min quakes = some tmin)
    (hmax : script_date_max quakes = some tmax) :
    plot_quake_counts quakes quakes tmin tmax
      = (List.range ((dateOf tmax - dateOf tmin).toNat + 1)).map
          (fun (i : ℕ) => (dateOf tmin + (i : ℤ),
            countOnDay (quakes.map (·.time)) (dateOf tmin + (i : ℤ)))) ∧
    (plot_quake_counts quakes quakes tmin tmax).length
      = (dateOf tmax - dateOf tmin).toNat + 1 ∧
    ((plot_quake_counts quakes quakes tmin tmax).map Prod.snd).sum = quakes.length := by
  have hmin' : npMin (quakes.map (·.time)) = some tmin := hmin
  have hmax' : npMax (quakes.map (·.time)) = some tmax := hmax
  obtain ⟨hmem_min, hlb⟩ := npMin_spec hmin'
  obtain ⟨hmem_max, hub⟩ := npMax_spec hmax'
  have htt : tmin ≤ tmax := hub _ hmem_min
  have hdd : dateOf tmin ≤ dateOf tmax := dateOf_mono htt
  have htoNat : (dateOf tmax + 1 - dateOf tmin).toNat
      = (dateOf tmax - dateOf tmin).toNat + 1 := by omega
  have hplot : plot_quake_counts quakes quakes tmin tmax
      = (List.range ((dateOf tmax - dateOf tmin).toNat + 1)).map
          (fun (i : ℕ) => (dateOf tmin + (i : ℤ),
            countOnDay (quakes.map (·.time)) (dateOf tmin + (i : ℤ)))) :=
    quakeCountsLoop_spec (quakes.map (·.time)) (dateOf tmax)
      ((dateOf tmax - dateOf tmin).toNat + 1) (dateOf tmin) htoNat
  refine ⟨hplot, ?_, ?_⟩
  · rw [hplot]
    simp
  · rw [hplot, List.map_map]
    have hall : ∀ tm ∈ quakes.map (·.time),
        (fun tm => decide (dateOf tmin ≤ dateOf tm ∧
          dateOf tm < dateOf tmin + (((dateOf tmax - dateOf tmin).toNat + 1 : ℕ) : ℤ))) tm
          = true := by
      intro tm htm
      have h1 : dateOf tmin ≤ dateOf tm := dateOf_mono (hlb _ htm)
      have h2 : dateOf tm ≤ dateOf tmax := dateOf_mono (hub _ htm)
      simp only [decide_eq_true_eq]
      refine ⟨h1, ?_⟩
      push_cast
      omega
    have hcomp : (Prod.snd ∘ fun (i : ℕ) => (dateOf tmin + (i : ℤ),
        countOnDay (quakes.map (·.time)) (dateOf tmin + (i : ℤ))))
        = fun (i : ℕ) => countOnDay (quakes.map (·.time)) (dateOf tmin + (i : ℤ)) := rfl
    rw [hcomp, sum_over_days, List.countP_eq_length.mpr hall, List.length_map]

/-- C1 witness: the claim applied to the scenario batch, whose time bounds
are day 0 and day 2. -/
theorem plot_quake_counts_complete_witness :
    script_date_min scenario = some 0 ∧
    script_date_max scenario = some 172800000000 ∧
    (plot_quake_counts scenario scenario 0 172800000000).length
      = (dateOf 172800000000 - dateOf 0).toNat + 1 ∧
    ((plot_quake_counts scenario scenario 0 172800000000).map Prod.snd).sum
      = scenario.length :=
  ⟨by decide, by decide,
    (plot_quake_counts_complete scenario 0 172800000000 (by decide) (by decide)).2.1,
    (plot_quake_counts_complete scenario 0 172800000000 (by decide) (by decide)).2.2⟩

end Earthquakes
